import Mathlib

/-!
Verification of the knowledge-base pipeline of `backend/knowledge_manager.py`
(class `KnowledgeManager`), shallowly embedded in Lean 4.

The embedding models the three stores the pipeline touches:
  * the OpenSearch vector index (a list of `VectorRecord`),
  * the DocumentDB metadata collection (a list of `MetadataRecord`),
  * the on-disk knowledge-base directory (an association list path ↦ bytes).

External services are modelled at their documented interfaces: the OpenSearch
`search` call filters by `min_score` on the engine score (the script
`cosineSimilarity(...) + 1.0`, abstracted as a score function on records),
sorts descending and caps at `size`; the OpenSearch `delete` call raises a
not-found error when the id is absent; DocumentDB `find`/`find_one`/
`delete_many`/`insert_many` are list operations keyed on record fields.
Embeddings and format readers are deterministic functions passed as
parameters; uuid4 allocation is a parameter supply of identifiers.
-/

namespace KnowledgeManager

/-- One entry of the OpenSearch vector index, as built in `add_document`
(the body passed to `opensearch_client.index`). -/
structure VectorRecord where
  id : String
  vector : List ℚ
  content : String
  fileName : String
  documentType : String
  category : String
  chunkIndex : ℕ
  mongoDocId : String
  deriving Repr, DecidableEq

/-- One document of the DocumentDB `knowledge_metadata` collection, as built
in `add_document` (the dict appended to `metadata_docs`). -/
structure MetadataRecord where
  id : String
  documentId : String
  opensearchDocId : String
  filePath : String
  fileName : String
  documentType : String
  category : String
  chunkIndex : ℕ
  totalChunks : ℕ
  content : String
  contentLength : ℕ
  metadata : List (String × String)
  deriving Repr, DecidableEq

/-- The combined state of the two stores and the on-disk directory. -/
structure KBState where
  vdb : List VectorRecord
  meta : List MetadataRecord
  files : List (String × String)
  deriving Repr, DecidableEq

/-- Errors raised by the pipeline: `ValueError("Unsupported document type")`,
`ValueError("Document not found")`, and the OpenSearch client's
`NotFoundError` on deleting an absent id. -/
inductive KMError where
  | unsupportedType
  | documentNotFound
  | vectorNotFound
  deriving Repr, DecidableEq

/-- `KNOWLEDGE_BASE_DIR` from `config.py` (default value). -/
def KNOWLEDGE_BASE_DIR : String := "./knowledge_base"

/-- The keys of the `self.readers` dict: `{'pdf', 'docx', 'text'}`. -/
def supportedTypes : List String := ["pdf", "docx", "text"]

/-- Read a file from the modelled directory (`Path.exists` + `open`). -/
def fileLookup (files : List (String × String)) (p : String) : Option String :=
  (files.find? (fun e => e.1 == p)).map (fun e => e.2)

/-- Write a file (`open(path, "wb").write`), overwriting any previous entry. -/
def fileWrite (files : List (String × String)) (p c : String) : List (String × String) :=
  (p, c) :: files.filter (fun e => e.1 != p)

/-- Delete a file (`Path.unlink`). -/
def fileDelete (files : List (String × String)) (p : String) : List (String × String) :=
  files.filter (fun e => e.1 != p)

/-! ### The query pipeline (`search_knowledge`) -/

/-- The `must` clauses of the search body: a `term` filter on
`document_type` and on `category`, each only when supplied. -/
def matchesFilters (docType category : Option String) (v : VectorRecord) : Bool :=
  (match docType with
   | none => true
   | some t => v.documentType == t) &&
  (match category with
   | none => true
   | some c => v.category == c)

/-- Insert a record into a list sorted by engine score, descending (helper
for the engine's ranking). -/
def insertScored (sc : VectorRecord → ℚ) (v : VectorRecord) :
    List VectorRecord → List VectorRecord
  | [] => [v]
  | w :: ws => if sc w < sc v then v :: w :: ws else w :: insertScored sc v ws

/-- Sort records by engine score, descending (the engine's result ranking). -/
def sortByScoreDesc (sc : VectorRecord → ℚ) : List VectorRecord → List VectorRecord
  | [] => []
  | v :: vs => insertScored sc v (sortByScoreDesc sc vs)

/-- The OpenSearch `search` call on the body built by `search_knowledge`:
`sc v` is the engine score of record `v`, i.e. the value of the script
`cosineSimilarity(params.query_vector, 'vector') + 1.0` for the query at
hand; the engine keeps hits matching the `must` clauses, drops those below
`min_score`, ranks by score descending and returns at most `size` hits. -/
def engineHits (sc : VectorRecord → ℚ) (size : ℕ) (minScore : ℚ)
    (docType category : Option String) (vdb : List VectorRecord) : List VectorRecord :=
  ((sortByScoreDesc sc (vdb.filter (matchesFilters docType category))).filter
      (fun v => decide (minScore ≤ sc v))).take size

/-- One element of the result list built by `search_knowledge`. The
`full_content` / `mongo_metadata` keys are only present when the DocumentDB
lookup found a record, hence `Option`. -/
structure SearchResult where
  opensearchDocId : String
  similarityScore : ℚ
  content : String
  fileName : String
  documentType : String
  category : String
  chunkIndex : ℕ
  mongoDocId : String
  fullContent : Option String
  mongoMetadata : Option (List (String × String))
  deriving Repr, DecidableEq

/-- The per-hit formatting loop of `search_knowledge`: look up the
DocumentDB record with `opensearch_doc_id == hit['_id']` via `find_one`,
report `hit['_score'] - 1.0` as the similarity score, and attach the full
content and metadata only when the lookup succeeded. -/
def formatHit (sc : VectorRecord → ℚ) (meta : List MetadataRecord)
    (v : VectorRecord) : SearchResult :=
  let mongoDoc := meta.find? (fun m => m.opensearchDocId == v.id)
  { opensearchDocId := v.id
    similarityScore := sc v - 1
    content := v.content
    fileName := v.fileName
    documentType := v.documentType
    category := v.category
    chunkIndex := v.chunkIndex
    mongoDocId := v.mongoDocId
    fullContent := mongoDoc.map (fun m => m.content)
    mongoMetadata := mongoDoc.map (fun m => m.metadata) }

/-- `search_knowledge(query, limit, similarity_threshold, document_type,
category)`: build the filtered, thresholded, capped engine query and format
each hit. The query string enters only through the engine score function
`sc` (its embedding is fixed for the call). -/
def searchKnowledge (sc : VectorRecord → ℚ) (limit : ℕ) (threshold : ℚ)
    (docType category : Option String) (s : KBState) : List SearchResult :=
  (engineHits sc limit threshold docType category s.vdb).map (formatHit sc s.meta)

/-! ### The ingestion pipeline (`add_document`) -/

/-- The result dict of a successful `add_document`. -/
structure AddResult where
  documentId : String
  chunksCreated : ℕ
  filePath : String
  deriving Repr, DecidableEq

/-- The file path `add_document` saves the upload under:
`KNOWLEDGE_BASE_DIR / category / f"{document_id}_{file.filename}"`. -/
def savedFilePath (category docId filename : String) : String :=
  KNOWLEDGE_BASE_DIR ++ "/" ++ category ++ "/" ++ docId ++ "_" ++ filename

/-- The `mongo_id` of chunk `i`: `f"{document_id}_chunk_{i}"`. -/
def mongoIdOf (docId : String) (i : ℕ) : String :=
  docId ++ "_chunk_" ++ toString i

/-- The `doc_metadata` dict built per chunk in `add_document`, with the
caller's extra `metadata` dict appended (`doc_metadata.update(metadata)`);
values are rendered as strings. The reader's per-chunk `doc.meta` is not
modelled (the format readers are external). -/
def docMetadata (docId filePath filename docType category : String)
    (i total : ℕ) (mongoId osId createdAt : String)
    (custom : List (String × String)) : List (String × String) :=
  [("document_id", docId), ("file_path", filePath), ("file_name", filename),
   ("document_type", docType), ("category", category),
   ("chunk_index", toString i), ("total_chunks", toString total),
   ("mongo_doc_id", mongoId), ("opensearch_doc_id", osId),
   ("created_at", createdAt)] ++ custom

/-- The paired OpenSearch body and DocumentDB document built for chunk `i`
with text `chunk` (the loop body of `add_document`). `embed` is the Bedrock
embedding call, `osIds i` the uuid4 allocated for chunk `i`'s OpenSearch id. -/
def chunkPair (embed : String → List ℚ) (docId : String) (osIds : ℕ → String)
    (createdAt filename docType category filePath : String) (total : ℕ)
    (custom : List (String × String))
    (p : ℕ × String) : VectorRecord × MetadataRecord :=
  let i := p.1
  let chunk := p.2
  let osId := osIds i
  let mongoId := mongoIdOf docId i
  ({ id := osId
     vector := embed chunk
     content := chunk.take 1000
     fileName := filename
     documentType := docType
     category := category
     chunkIndex := i
     mongoDocId := mongoId },
   { id := mongoId
     documentId := docId
     opensearchDocId := osId
     filePath := filePath
     fileName := filename
     documentType := docType
     category := category
     chunkIndex := i
     totalChunks := total
     content := chunk
     contentLength := chunk.length
     metadata := docMetadata docId filePath filename docType category
       i total mongoId osId createdAt custom })

/-- `add_document(file, document_type, category, metadata)`. The upload is
`(filename, fileContent)`; `rd t c` models `self.readers[t].read(path)` on a
file whose bytes are `c` (the reader returns the chunk texts in order);
`embed` models the per-text Bedrock embedding call; `docId` is the uuid4
allocated for the document and `osIds` the uuid4 supply for chunk ids.
Returns the state after the call together with the result or the raised
error: the file is saved to disk before the reader lookup, so the write
survives an unsupported-type failure. -/
def addDocument (rd : String → String → List String) (embed : String → List ℚ)
    (docId : String) (osIds : ℕ → String) (createdAt : String)
    (filename fileContent docType category : String)
    (custom : List (String × String)) (s : KBState) :
    KBState × Except KMError AddResult :=
  let filePath := savedFilePath category docId filename
  let files1 := fileWrite s.files filePath fileContent
  if supportedTypes.contains docType then
    let chunks := rd docType fileContent
    let pairs := chunks.enum.map
      (chunkPair embed docId osIds createdAt filename docType category
        filePath chunks.length custom)
    ({ vdb := s.vdb ++ pairs.map (fun q => q.1)
       meta := s.meta ++ pairs.map (fun q => q.2)
       files := files1 },
     .ok { documentId := docId
           chunksCreated := chunks.length
           filePath := filePath })
  else
    ({ s with files := files1 }, .error .unsupportedType)

/-- The externally visible store-writing events of one `add_document` call,
in program order: the file write, then one `opensearch_client.index` call
per chunk, then (when `metadata_docs` is non-empty) the single
`insert_many` holding every DocumentDB document of the call. -/
inductive IngestEvent where
  | fileSave (path : String)
  | vectorInsert (id : String)
  | metadataBulkInsert (ids : List String)
  deriving Repr, DecidableEq

/-- The event trace of `add_document` on the same inputs as `addDocument`. -/
def addDocumentTrace (rd : String → String → List String)
    (docId : String) (osIds : ℕ → String)
    (filename fileContent docType category : String) : List IngestEvent :=
  let filePath := savedFilePath category docId filename
  .fileSave filePath ::
    (if supportedTypes.contains docType then
      let chunks := rd docType fileContent
      ((List.range chunks.length).map (fun i => .vectorInsert (osIds i))) ++
        (if chunks.length = 0 then []
         else [.metadataBulkInsert
                ((List.range chunks.length).map (mongoIdOf docId))])
    else [])

/-! ### Deletion (`delete_document`) -/

/-- One `opensearch_client.delete(index, id)` call: removes the record when
present, raises the client's `NotFoundError` when absent. -/
def opensearchDeleteOne (id : String) (vdb : List VectorRecord) :
    Except KMError (List VectorRecord) :=
  if vdb.any (fun v => v.id == id) then
    .ok (vdb.filter (fun v => v.id != id))
  else
    .error .vectorNotFound

/-- The per-id deletion loop of `delete_document`: ids are deleted in
order; an exception aborts the loop, leaving the deletions made so far. -/
def deleteVectorsLoop : List String → List VectorRecord →
    List VectorRecord × Option KMError
  | [], vdb => (vdb, none)
  | id :: rest, vdb =>
    match opensearchDeleteOne id vdb with
    | .ok vdb' => deleteVectorsLoop rest vdb'
    | .error e => (vdb, some e)

/-- `delete_document(document_id)`: find all DocumentDB records of the
document; raise `ValueError` when there are none; otherwise delete the
linked OpenSearch records one by one (a `NotFoundError` propagates), then
`delete_many` the DocumentDB records, then unlink the file at
`mongo_docs[0]["file_path"]` when it exists. Returns the state after the
call and the chunk count or the raised error. -/
def deleteDocument (docId : String) (s : KBState) :
    KBState × Except KMError ℕ :=
  match s.meta.filter (fun m => m.documentId == docId) with
  | [] => (s, .error .documentNotFound)
  | m0 :: rest =>
    match deleteVectorsLoop ((m0 :: rest).map (fun m => m.opensearchDocId)) s.vdb with
    | (vdb', some e) => ({ s with vdb := vdb' }, .error e)
    | (vdb', none) =>
      ({ vdb := vdb'
         meta := s.meta.filter (fun m => m.documentId != docId)
         files := if (fileLookup s.files m0.filePath).isSome then
             fileDelete s.files m0.filePath
           else s.files },
       .ok (m0 :: rest).length)

/-! ### Document listing (`list_documents`) and reindex (`reindex_all`) -/

/-- One group of the `$group`-by-`document_id` aggregation in
`list_documents` (the timestamp fields `created_at` / `updated_at`, used
only for the final `$sort`, are not modelled; group enumeration order is
the first-occurrence order of the document id). -/
structure DocSummary where
  documentId : String
  fileName : String
  filePath : String
  documentType : String
  category : String
  chunkCount : ℕ
  totalContentLength : ℕ
  deriving Repr, DecidableEq

/-- The distinct keys of a list, in first-occurrence order (the group keys
of the aggregation). -/
def distinctKeys (l : List String) : List String :=
  l.foldl (fun acc k => if acc.contains k then acc else acc ++ [k]) []

/-- `list_documents(category, document_type)`: `$match` on the supplied
filters, then `$group` on `document_id` taking `$first` of the scalar
fields, `$sum 1` as the chunk count and `$sum` of `content_length`. -/
def listDocuments (category docType : Option String) (s : KBState) :
    List DocSummary :=
  let filtered := s.meta.filter (fun m =>
    (match category with
     | none => true
     | some c => m.category == c) &&
    (match docType with
     | none => true
     | some t => m.documentType == t))
  (distinctKeys (filtered.map (fun m => m.documentId))).filterMap (fun d =>
    (filtered.find? (fun m => m.documentId == d)).map (fun m0 =>
      { documentId := d
        fileName := m0.fileName
        filePath := m0.filePath
        documentType := m0.documentType
        category := m0.category
        chunkCount := (filtered.filter (fun m => m.documentId == d)).length
        totalContentLength :=
          ((filtered.filter (fun m => m.documentId == d)).map
            (fun m => m.contentLength)).sum }))

/-- The body of `reindex_all`'s loop over the listed documents, threading
the state, the uuid4 supply position `k`, and the two running totals.
Per document: `delete_document` first (an error propagates), then re-add
via `add_document` only when the stored file still exists, reading its
bytes from disk; a re-added document consumes one uuid for its document id
and one per chunk. -/
def reindexLoop (rd : String → String → List String) (embed : String → List ℚ)
    (uuids : ℕ → String) (createdAt : String) :
    List DocSummary → ℕ → ℕ → ℕ → KBState →
    KBState × Except KMError (ℕ × ℕ)
  | [], _, processed, chunksTot, s => (s, .ok (processed, chunksTot))
  | d :: ds, k, processed, chunksTot, s =>
    match deleteDocument d.documentId s with
    | (s1, .error e) => (s1, .error e)
    | (s1, .ok _) =>
      match fileLookup s1.files d.filePath with
      | none => reindexLoop rd embed uuids createdAt ds k processed chunksTot s1
      | some content =>
        match addDocument rd embed (uuids k) (fun i => uuids (k + 1 + i))
            createdAt d.fileName content d.documentType d.category [] s1 with
        | (s2, .error e) => (s2, .error e)
        | (s2, .ok r) =>
          reindexLoop rd embed uuids createdAt ds (k + 1 + r.chunksCreated)
            (processed + 1) (chunksTot + r.chunksCreated) s2

/-- `reindex_all()`: list all documents once, then for each delete it and
re-ingest it from its stored file path when that file exists, returning
`(documents_processed, chunks_created)`. -/
def reindexAll (rd : String → String → List String) (embed : String → List ℚ)
    (uuids : ℕ → String) (createdAt : String) (s : KBState) :
    KBState × Except KMError (ℕ × ℕ) :=
  reindexLoop rd embed uuids createdAt (listDocuments none none s) 0 0 0 s

/-! ### Test fixtures (concrete records for witnesses and counterexamples) -/

/-- A concrete vector-index record. -/
def vSamp : VectorRecord :=
  { id := "o0", vector := [], content := "hello", fileName := "f.txt",
    documentType := "text", category := "general", chunkIndex := 0,
    mongoDocId := "d_chunk_0" }

/-- A concrete metadata record linked to `vSamp` (its `opensearchDocId` is
`vSamp.id` and `vSamp.mongoDocId` is its `id`). -/
def mSamp : MetadataRecord :=
  { id := "d_chunk_0", documentId := "d", opensearchDocId := "o0",
    filePath := savedFilePath "general" "d" "f.txt", fileName := "f.txt",
    documentType := "text", category := "general", chunkIndex := 0,
    totalChunks := 1, content := "hello", contentLength := 5, metadata := [] }

/-! ### Lemmas about the query pipeline -/

lemma mem_insertScored (sc : VectorRecord → ℚ) (v x : VectorRecord)
    (l : List VectorRecord) :
    x ∈ insertScored sc v l ↔ x = v ∨ x ∈ l := by
  induction l with
  | nil => simp [insertScored]
  | cons w ws ih =>
    simp only [insertScored]
    split
    · simp [List.mem_cons]
    · simp only [List.mem_cons, ih]
      tauto

lemma mem_sortByScoreDesc (sc : VectorRecord → ℚ) (x : VectorRecord)
    (l : List VectorRecord) :
    x ∈ sortByScoreDesc sc l ↔ x ∈ l := by
  induction l with
  | nil => simp [sortByScoreDesc]
  | cons w ws ih =>
    simp [sortByScoreDesc, mem_insertScored, ih, List.mem_cons]

/-- A hit returned by the engine comes from the index, passed the filters,
and its engine score is at least `min_score`. -/
lemma engineHits_spec (sc : VectorRecord → ℚ) (size : ℕ) (minScore : ℚ)
    (docType category : Option String) (vdb : List VectorRecord)
    (v : VectorRecord) (hv : v ∈ engineHits sc size minScore docType category vdb) :
    v ∈ vdb ∧ matchesFilters docType category v = true ∧ minScore ≤ sc v := by
  have h1 := List.take_subset _ _ hv
  rw [List.mem_filter] at h1
  obtain ⟨h2, h3⟩ := h1
  rw [mem_sortByScoreDesc, List.mem_filter] at h2
  exact ⟨h2.1, h2.2, by simpa using h3⟩

/-- The engine returns at most `size` hits. -/
lemma engineHits_length_le (sc : VectorRecord → ℚ) (size : ℕ) (minScore : ℚ)
    (docType category : Option String) (vdb : List VectorRecord) :
    (engineHits sc size minScore docType category vdb).length ≤ size := by
  rw [engineHits, List.length_take]
  exact Nat.min_le_left _ _

/-- When every record scores strictly below `min_score`, the engine
returns no hits. -/
lemma engineHits_eq_nil (sc : VectorRecord → ℚ) (size : ℕ) (minScore : ℚ)
    (docType category : Option String) (vdb : List VectorRecord)
    (hlow : ∀ v ∈ vdb, sc v < minScore) :
    engineHits sc size minScore docType category vdb = [] := by
  have hfil : (sortByScoreDesc sc (vdb.filter (matchesFilters docType category))).filter
      (fun v => decide (minScore ≤ sc v)) = [] := by
    rw [List.filter_eq_nil_iff]
    intro a ha
    rw [mem_sortByScoreDesc, List.mem_filter] at ha
    simpa using not_le.mpr (hlow a ha.1)
  simp [engineHits, hfil]

/-! ### Claim theorems: query pipeline -/

/-- C1: every hit returned by `search_knowledge` carries a
`similarity_score` equal to the engine's raw score minus 1, so whenever
every raw score lies in [0, 2] the caller-visible score lies in [-1, 1]. -/
theorem c1_similarity_score_is_raw_minus_one (sc : VectorRecord → ℚ)
    (limit : ℕ) (threshold : ℚ) (docType category : Option String)
    (s : KBState) (hraw : ∀ v ∈ s.vdb, 0 ≤ sc v ∧ sc v ≤ 2) :
    ∀ r ∈ searchKnowledge sc limit threshold docType category s,
      ∃ v ∈ s.vdb, r.similarityScore = sc v - 1 ∧
        -1 ≤ r.similarityScore ∧ r.similarityScore ≤ 1 := by
  intro r hr
  rw [searchKnowledge, List.mem_map] at hr
  obtain ⟨v, hv, hfmt⟩ := hr
  have hmem := (engineHits_spec sc limit threshold docType category s.vdb v hv).1
  refine ⟨v, hmem, ?_, ?_, ?_⟩
  · rw [← hfmt]; rfl
  · rw [← hfmt]
    have := (hraw v hmem).1
    show -1 ≤ sc v - 1
    linarith
  · rw [← hfmt]
    have := (hraw v hmem).2
    show sc v - 1 ≤ 1
    linarith

/-- Witness for C1 at a one-record index whose raw engine score is 3/2. -/
theorem c1_witness :
    ∃ v ∈ (KBState.mk [vSamp] [] []).vdb,
      (formatHit (fun _ => (3:ℚ)/2) [] vSamp).similarityScore =
        (fun _ => (3:ℚ)/2) v - 1 ∧
      -1 ≤ (formatHit (fun _ => (3:ℚ)/2) [] vSamp).similarityScore ∧
      (formatHit (fun _ => (3:ℚ)/2) [] vSamp).similarityScore ≤ 1 :=
  c1_similarity_score_is_raw_minus_one (fun _ => (3:ℚ)/2) 5 0 none none
    (KBState.mk [vSamp] [] []) (by norm_num)
    (formatHit (fun _ => (3:ℚ)/2) [] vSamp)
    (by norm_num [searchKnowledge, engineHits, sortByScoreDesc, insertScored,
      matchesFilters, vSamp])

/-- C4 fails as stated: with one candidate whose engine score is 1 (cosine
similarity 0) and threshold 7/10, `search_knowledge` returns a result whose
caller-visible similarity 0 is below the threshold — and the threshold
exceeds the candidate's similarity yet the result list is not empty. -/
theorem c4_counterexample :
    (searchKnowledge (fun _ => (1:ℚ)) 5 (7/10) none none
        (KBState.mk [vSamp] [] [])).map (fun r => r.similarityScore) = [0] ∧
      (0:ℚ) < 7/10 := by
  constructor
  · norm_num [searchKnowledge, engineHits, sortByScoreDesc, insertScored,
      matchesFilters, formatHit, vSamp]
  · norm_num

/-- C4 (amended): the threshold is applied by the engine to the raw score
(1 + cosine), so every returned result has caller-visible similarity at
least `threshold - 1`; the result list has at most `limit` entries; and
when the threshold exceeds every candidate's raw engine score the search
returns an empty list (`searchKnowledge` is total, so no error). -/
theorem c4_threshold_on_raw_score (sc : VectorRecord → ℚ) (limit : ℕ)
    (threshold : ℚ) (docType category : Option String) (s : KBState) :
    (∀ r ∈ searchKnowledge sc limit threshold docType category s,
        threshold - 1 ≤ r.similarityScore) ∧
    (searchKnowledge sc limit threshold docType category s).length ≤ limit ∧
    ((∀ v ∈ s.vdb, sc v < threshold) →
        searchKnowledge sc limit threshold docType category s = []) := by
  refine ⟨?_, ?_, ?_⟩
  · intro r hr
    rw [searchKnowledge, List.mem_map] at hr
    obtain ⟨v, hv, hfmt⟩ := hr
    have hsc := (engineHits_spec sc limit threshold docType category s.vdb v hv).2.2
    rw [← hfmt]
    show threshold - 1 ≤ sc v - 1
    linarith
  · rw [searchKnowledge, List.length_map]
    exact engineHits_length_le sc limit threshold docType category s.vdb
  · intro hlow
    rw [searchKnowledge, engineHits_eq_nil sc limit threshold docType category
      s.vdb hlow, List.map_nil]

/-- Witness for C4 (amended): an empty result on an all-below-threshold
index, and the limit bound on a one-hit search. -/
theorem c4_threshold_on_raw_score_witness :
    searchKnowledge (fun _ => (0:ℚ)) 5 (7/10) none none
        (KBState.mk [vSamp] [] []) = [] ∧
      (searchKnowledge (fun _ => (2:ℚ)) 1 1 none none
        (KBState.mk [vSamp] [] [])).length ≤ 1 :=
  ⟨(c4_threshold_on_raw_score (fun _ => (0:ℚ)) 5 (7/10) none none
      (KBState.mk [vSamp] [] [])).2.2 (by norm_num),
   (c4_threshold_on_raw_score (fun _ => (2:ℚ)) 1 1 none none
      (KBState.mk [vSamp] [] [])).2.1⟩

/-- C6: every result of `search_knowledge` is the formatting of an engine
hit; the DocumentDB record is looked up by matching its `opensearch_doc_id`
against the hit's id; when found, the result carries the full content and
the stored metadata map; when not found, those fields are absent and only
the index's truncated preview (`content`) is carried — in either case the
result is produced, never an error. -/
theorem c6_missing_metadata_not_an_error (sc : VectorRecord → ℚ)
    (limit : ℕ) (threshold : ℚ) (docType category : Option String)
    (s : KBState) :
    ∀ r ∈ searchKnowledge sc limit threshold docType category s,
      ∃ v ∈ engineHits sc limit threshold docType category s.vdb,
        r = formatHit sc s.meta v ∧ r.content = v.content ∧
        (s.meta.find? (fun m => m.opensearchDocId == v.id) = none →
          r.fullContent = none ∧ r.mongoMetadata = none) ∧
        (∀ m, s.meta.find? (fun m => m.opensearchDocId == v.id) = some m →
          r.fullContent = some m.content ∧ r.mongoMetadata = some m.metadata) := by
  intro r hr
  rw [searchKnowledge, List.mem_map] at hr
  obtain ⟨v, hv, hfmt⟩ := hr
  refine ⟨v, hv, hfmt.symm, ?_, ?_, ?_⟩
  · rw [← hfmt]; rfl
  · intro hnone
    rw [← hfmt]
    simp [formatHit, hnone]
  · intro m hsome
    rw [← hfmt]
    simp [formatHit, hsome]

/-- Witness for C6 on a one-hit search whose metadata record is present. -/
theorem c6_witness :
    ∃ v ∈ engineHits (fun _ => (2:ℚ)) 5 0 none none
        (KBState.mk [vSamp] [mSamp] []).vdb,
      formatHit (fun _ => (2:ℚ)) [mSamp] vSamp =
          formatHit (fun _ => (2:ℚ)) (KBState.mk [vSamp] [mSamp] []).meta v ∧
        (formatHit (fun _ => (2:ℚ)) [mSamp] vSamp).content = v.content ∧
        ((KBState.mk [vSamp] [mSamp] []).meta.find?
            (fun m => m.opensearchDocId == v.id) = none →
          (formatHit (fun _ => (2:ℚ)) [mSamp] vSamp).fullContent = none ∧
          (formatHit (fun _ => (2:ℚ)) [mSamp] vSamp).mongoMetadata = none) ∧
        (∀ m, (KBState.mk [vSamp] [mSamp] []).meta.find?
            (fun m => m.opensearchDocId == v.id) = some m →
          (formatHit (fun _ => (2:ℚ)) [mSamp] vSamp).fullContent = some m.content ∧
          (formatHit (fun _ => (2:ℚ)) [mSamp] vSamp).mongoMetadata = some m.metadata) :=
  c6_missing_metadata_not_an_error (fun _ => (2:ℚ)) 5 0 none none
    (KBState.mk [vSamp] [mSamp] [])
    (formatHit (fun _ => (2:ℚ)) [mSamp] vSamp)
    (by norm_num [searchKnowledge, engineHits, sortByScoreDesc, insertScored,
      matchesFilters, vSamp])

/-! ### Claim theorems: ingestion -/

/-- C2: on a supported type, `add_document` appends exactly one vector
record and one metadata record per extracted chunk — pairwise linked: the
vector record stores the metadata record's id as `mongo_doc_id` and the
metadata record stores the vector record's id as `opensearch_doc_id` — and
reports the document id, the chunk count and the saved file path. -/
theorem c2_paired_records_per_chunk (rd : String → String → List String)
    (embed : String → List ℚ) (docId : String) (osIds : ℕ → String)
    (createdAt filename fileContent docType category : String)
    (custom : List (String × String)) (s : KBState)
    (hsupp : docType ∈ supportedTypes) :
    ∃ pairs : List (VectorRecord × MetadataRecord),
      addDocument rd embed docId osIds createdAt filename fileContent
          docType category custom s =
        ({ vdb := s.vdb ++ pairs.map (fun q => q.1)
           meta := s.meta ++ pairs.map (fun q => q.2)
           files := fileWrite s.files (savedFilePath category docId filename)
             fileContent },
         .ok { documentId := docId
               chunksCreated := (rd docType fileContent).length
               filePath := savedFilePath category docId filename }) ∧
      pairs.length = (rd docType fileContent).length ∧
      ∀ q ∈ pairs, q.1.mongoDocId = q.2.id ∧ q.2.opensearchDocId = q.1.id := by
  refine ⟨(rd docType fileContent).enum.map
    (chunkPair embed docId osIds createdAt filename docType category
      (savedFilePath category docId filename) (rd docType fileContent).length
      custom), ?_, ?_, ?_⟩
  · simp [addDocument, hsupp]
  · simp
  · intro q hq
    rw [List.mem_map] at hq
    obtain ⟨p, _, hp⟩ := hq
    rw [← hp]
    exact ⟨rfl, rfl⟩

/-- Witness for C2: a one-chunk text upload. -/
theorem c2_witness :
    ∃ pairs : List (VectorRecord × MetadataRecord),
      addDocument (fun _ c => [c]) (fun _ => []) "d" (fun i => "o" ++ toString i)
          "t" "f.txt" "hello" "text" "general" [] (KBState.mk [] [] []) =
        ({ vdb := [] ++ pairs.map (fun q => q.1)
           meta := [] ++ pairs.map (fun q => q.2)
           files := fileWrite [] (savedFilePath "general" "d" "f.txt") "hello" },
         .ok { documentId := "d"
               chunksCreated := ((fun _ c => [c]) "text" "hello").length
               filePath := savedFilePath "general" "d" "f.txt" }) ∧
      pairs.length = ((fun _ c => [c]) "text" "hello").length ∧
      ∀ q ∈ pairs, q.1.mongoDocId = q.2.id ∧ q.2.opensearchDocId = q.1.id :=
  c2_paired_records_per_chunk (fun _ c => [c]) (fun _ => []) "d"
    (fun i => "o" ++ toString i) "t" "f.txt" "hello" "text" "general" []
    (KBState.mk [] [] []) (by simp [supportedTypes])

/-- C5: when the reader extracts zero chunks, `add_document` writes no
vector or metadata records and completes successfully with
`chunks_created = 0` (the saved file is the only state change). -/
theorem c5_zero_chunks_is_success (rd : String → String → List String)
    (embed : String → List ℚ) (docId : String) (osIds : ℕ → String)
    (createdAt filename fileContent docType category : String)
    (custom : List (String × String)) (s : KBState)
    (hsupp : docType ∈ supportedTypes)
    (hzero : rd docType fileContent = []) :
    addDocument rd embed docId osIds createdAt filename fileContent
        docType category custom s =
      ({ s with
          files := fileWrite s.files (savedFilePath category docId filename) fileContent },
       .ok { documentId := docId
             chunksCreated := 0
             filePath := savedFilePath category docId filename }) := by
  simp [addDocument, hsupp, hzero]

/-- Witness for C5: an upload whose reader returns no chunks. -/
theorem c5_witness :
    addDocument (fun _ _ => []) (fun _ => []) "d" (fun i => "o" ++ toString i)
        "t" "f.txt" "hello" "text" "general" [] (KBState.mk [] [] []) =
      (KBState.mk [] []
         (fileWrite [] (savedFilePath "general" "d" "f.txt") "hello"),
       .ok { documentId := "d"
             chunksCreated := 0
             filePath := savedFilePath "general" "d" "f.txt" }) :=
  c5_zero_chunks_is_success (fun _ _ => []) (fun _ => []) "d"
    (fun i => "o" ++ toString i) "t" "f.txt" "hello" "text" "general" []
    (KBState.mk [] [] []) (by simp [supportedTypes]) rfl

/-- C9: `add_document` saves the upload to disk before validating the
document type, so an unsupported type raises the error with no vector or
metadata record written while the saved file remains on disk. -/
theorem c9_file_persists_on_unsupported_type (rd : String → String → List String)
    (embed : String → List ℚ) (docId : String) (osIds : ℕ → String)
    (createdAt filename fileContent docType category : String)
    (custom : List (String × String)) (s : KBState)
    (hunsupp : docType ∉ supportedTypes) :
    addDocument rd embed docId osIds createdAt filename fileContent
        docType category custom s =
      ({ s with
          files := fileWrite s.files (savedFilePath category docId filename) fileContent },
       .error .unsupportedType) ∧
    fileLookup (fileWrite s.files (savedFilePath category docId filename)
        fileContent) (savedFilePath category docId filename) =
      some fileContent := by
  constructor
  · simp [addDocument, hunsupp]
  · simp [fileLookup, fileWrite]

/-- Witness for C9: an upload tagged with the unsupported type "html". -/
theorem c9_witness :
    addDocument (fun _ c => [c]) (fun _ => []) "d" (fun i => "o" ++ toString i)
        "t" "f.txt" "hello" "html" "general" [] (KBState.mk [] [] []) =
      (KBState.mk [] []
         (fileWrite [] (savedFilePath "general" "d" "f.txt") "hello"),
       .error .unsupportedType) ∧
    fileLookup (fileWrite [] (savedFilePath "general" "d" "f.txt") "hello")
        (savedFilePath "general" "d" "f.txt") = some "hello" :=
  c9_file_persists_on_unsupported_type (fun _ c => [c]) (fun _ => []) "d"
    (fun i => "o" ++ toString i) "t" "f.txt" "hello" "html" "general" []
    (KBState.mk [] [] []) (by simp [supportedTypes])

/-- If a prefix of `xs ++ ys` contains an element that is not in `xs`, the
prefix already contains all of `xs`. -/
lemma prefix_contains_all_of_mem_late {α : Type} (xs ys : List α) (b : α)
    (hb : b ∉ xs) (k : ℕ) (hbk : b ∈ (xs ++ ys).take k) :
    ∀ x ∈ xs, x ∈ (xs ++ ys).take k := by
  intro x hx
  by_cases hk : k ≤ xs.length
  · exact absurd (List.take_subset _ _
      (by rwa [List.take_append_of_le_length hk] at hbk)) hb
  · push_neg at hk
    rw [List.take_append_eq_append_take]
    exact List.mem_append_left _
      (by rwa [List.take_of_length_le (le_of_lt hk)])

/-- Is the event a `metadataBulkInsert`? -/
def isBulkInsert : IngestEvent → Bool
  | .metadataBulkInsert _ => true
  | _ => false

/-- C10: in the event trace of one `add_document` call there is at most one
DocumentDB write, it is a bulk insert holding every metadata id of the
call, and any trace prefix that contains it already contains every
OpenSearch vector insert of the call — so an interruption can never leave
a metadata record of the call without its vector record inserted first. -/
theorem c10_all_vector_inserts_precede_bulk_metadata_insert
    (rd : String → String → List String) (docId : String) (osIds : ℕ → String)
    (filename fileContent docType category : String) :
    ((addDocumentTrace rd docId osIds filename fileContent docType
        category).filter isBulkInsert).length ≤ 1 ∧
    (∀ ids, IngestEvent.metadataBulkInsert ids ∈
        addDocumentTrace rd docId osIds filename fileContent docType category →
      ids = (List.range (rd docType fileContent).length).map (mongoIdOf docId)) ∧
    (∀ k ids, IngestEvent.metadataBulkInsert ids ∈
        (addDocumentTrace rd docId osIds filename fileContent docType
          category).take k →
      ∀ i < (rd docType fileContent).length,
        IngestEvent.vectorInsert (osIds i) ∈
          (addDocumentTrace rd docId osIds filename fileContent docType
            category).take k) := by
  by_cases hsupp : docType ∈ supportedTypes
  · by_cases hn : (rd docType fileContent).length = 0
    · refine ⟨?_, ?_, ?_⟩
      · simp [addDocumentTrace, hsupp, hn, List.length_eq_zero.mp hn, isBulkInsert]
      · intro ids hids
        simp [addDocumentTrace, hsupp, List.length_eq_zero.mp hn] at hids
      · intro k ids hids i hi
        omega
    · have hne : rd docType fileContent ≠ [] := by
        intro h
        exact hn (by simp [h])
      have hshape : addDocumentTrace rd docId osIds filename fileContent
          docType category =
          (IngestEvent.fileSave (savedFilePath category docId filename) ::
            (List.range (rd docType fileContent).length).map
              (fun i => IngestEvent.vectorInsert (osIds i))) ++
          [IngestEvent.metadataBulkInsert
            ((List.range (rd docType fileContent).length).map (mongoIdOf docId))] := by
        simp [addDocumentTrace, hsupp, hne]
      refine ⟨?_, ?_, ?_⟩
      · rw [hshape]
        simp [isBulkInsert, List.filter_append]
      · intro ids hids
        rw [hshape] at hids
        have heq : IngestEvent.metadataBulkInsert ids =
            IngestEvent.metadataBulkInsert
              ((List.range (rd docType fileContent).length).map (mongoIdOf docId)) := by
          rcases List.mem_append.mp hids with h | h
          · exfalso
            rcases List.mem_cons.mp h with h | h
            · cases h
            · obtain ⟨a, _, ha⟩ := List.mem_map.mp h
              cases ha
          · rcases List.mem_cons.mp h with h | h
            · exact h
            · cases h
        injection heq
      · intro k ids hids i hi
        rw [hshape] at hids ⊢
        have hnotmem : IngestEvent.metadataBulkInsert ids ∉
            IngestEvent.fileSave (savedFilePath category docId filename) ::
              (List.range (rd docType fileContent).length).map
                (fun i => IngestEvent.vectorInsert (osIds i)) := by
          intro hmem
          simp only [List.mem_cons, List.mem_map] at hmem
          rcases hmem with hmem | ⟨a, _, ha⟩
          · cases hmem
          · cases ha
        refine prefix_contains_all_of_mem_late _ _ _ hnotmem k hids _ ?_
        simp only [List.mem_cons, List.mem_map, List.mem_range]
        exact Or.inr ⟨i, hi, rfl⟩
  · refine ⟨?_, ?_, ?_⟩
    · simp [addDocumentTrace, hsupp, isBulkInsert]
    · intro ids hids
      simp [addDocumentTrace, hsupp] at hids
    · intro k ids hids i hi
      exfalso
      have hmem := List.take_subset k _ hids
      simp [addDocumentTrace, hsupp] at hmem

/-- Witness for C10 at a one-chunk ingestion: the prefix of length 3
contains the bulk insert and the vector insert. -/
theorem c10_witness :
    IngestEvent.vectorInsert ("o" ++ toString 0) ∈
      (addDocumentTrace (fun _ c => [c]) "d" (fun i => "o" ++ toString i)
        "f.txt" "hello" "text" "general").take 3 :=
  (c10_all_vector_inserts_precede_bulk_metadata_insert (fun _ c => [c]) "d"
      (fun i => "o" ++ toString i) "f.txt" "hello" "text" "general").2.2
    3 [mongoIdOf "d" 0]
    (by norm_num [addDocumentTrace, supportedTypes, mongoIdOf, List.range_succ])
    0 (by simp)

/-! ### Lemmas about the deletion loop -/

/-- The only error the per-id deletion loop can surface is the OpenSearch
client's not-found error. -/
lemma deleteVectorsLoop_error_eq (ids : List String) :
    ∀ (vdb vdb' : List VectorRecord) (e : KMError),
      deleteVectorsLoop ids vdb = (vdb', some e) → e = .vectorNotFound := by
  induction ids with
  | nil =>
    intro vdb vdb' e h
    simp [deleteVectorsLoop] at h
  | cons id rest ih =>
    intro vdb vdb' e h
    by_cases hany : vdb.any (fun v => v.id == id) = true
    · rw [deleteVectorsLoop, opensearchDeleteOne, if_pos hany] at h
      exact ih _ _ _ h
    · rw [deleteVectorsLoop, opensearchDeleteOne, if_neg hany] at h
      exact (Option.some.inj (congrArg Prod.snd h)).symm

/-- When the ids are distinct and each is present in the index, the
deletion loop succeeds and removes exactly the records with those ids. -/
lemma deleteVectorsLoop_all_present (ids : List String) :
    ∀ vdb : List VectorRecord, ids.Nodup →
      (∀ id ∈ ids, ∃ v ∈ vdb, v.id = id) →
      deleteVectorsLoop ids vdb =
        (vdb.filter (fun v => !(ids.contains v.id)), none) := by
  induction ids with
  | nil =>
    intro vdb _ _
    simp [deleteVectorsLoop]
  | cons id rest ih =>
    intro vdb hnd hpres
    obtain ⟨v0, hv0, hv0id⟩ := hpres id (List.mem_cons_self id rest)
    have hany : vdb.any (fun v => v.id == id) = true := by
      rw [List.any_eq_true]
      exact ⟨v0, hv0, by simp [hv0id]⟩
    have hidnotin : id ∉ rest := (List.nodup_cons.mp hnd).1
    have hrec := ih (vdb.filter (fun v => v.id != id))
      (List.nodup_cons.mp hnd).2
      (by
        intro id' hid'
        obtain ⟨v, hv, hvid⟩ := hpres id' (List.mem_cons_of_mem id hid')
        have hne : id' ≠ id := fun hcontr => hidnotin (hcontr ▸ hid')
        refine ⟨v, ?_, hvid⟩
        rw [List.mem_filter]
        exact ⟨hv, by rw [bne_iff_ne, hvid]; exact hne⟩)
    rw [deleteVectorsLoop, opensearchDeleteOne, if_pos hany]
    show deleteVectorsLoop rest (vdb.filter (fun v => v.id != id)) =
      (vdb.filter (fun v => !((id :: rest).contains v.id)), none)
    rw [hrec, List.filter_filter]
    refine congrArg (fun l => (l, (none : Option KMError))) ?_
    apply List.filter_congr
    intro v _
    cases h1 : v.id == id <;> cases h2 : rest.contains v.id <;>
      simp_all [List.contains_cons, bne]

/-- Success shape of `delete_document`: when metadata records match and
every linked vector record is present with distinct ids, the call removes
exactly those vector records, bulk-deletes the matching metadata records,
unlinks the file when present, and reports the chunk count. -/
lemma deleteDocument_ok (docId : String) (s : KBState)
    (m0 : MetadataRecord) (rest : List MetadataRecord)
    (hm : s.meta.filter (fun m => m.documentId == docId) = m0 :: rest)
    (hnd : (((m0 :: rest).map (fun m => m.opensearchDocId)).Nodup))
    (hpres : ∀ m ∈ m0 :: rest, ∃ v ∈ s.vdb, v.id = m.opensearchDocId) :
    deleteDocument docId s =
      ({ vdb := s.vdb.filter (fun v =>
           !(((m0 :: rest).map (fun m => m.opensearchDocId)).contains v.id))
         meta := s.meta.filter (fun m => m.documentId != docId)
         files := if (fileLookup s.files m0.filePath).isSome then
             fileDelete s.files m0.filePath
           else s.files },
       .ok (m0 :: rest).length) := by
  have hpres' : ∀ id ∈ (m0 :: rest).map (fun m => m.opensearchDocId),
      ∃ v ∈ s.vdb, v.id = id := by
    intro id hid
    rw [List.mem_map] at hid
    obtain ⟨m, hmem, hmid⟩ := hid
    obtain ⟨v, hv, hvid⟩ := hpres m hmem
    exact ⟨v, hv, by rw [hvid, hmid]⟩
  simp only [deleteDocument, hm]
  rw [deleteVectorsLoop_all_present _ s.vdb hnd hpres']

/-! ### Claim theorems: deletion -/

/-- C3 fails as stated: on a state holding one metadata record whose
linked vector record is absent from the index, `delete_document` does not
tolerate the per-record not-found — it propagates the OpenSearch
`NotFoundError` (which is not the "document not found" error) and leaves
the metadata records in place. -/
theorem c3_counterexample :
    deleteDocument "d" (KBState.mk [] [mSamp] []) =
      (KBState.mk [] [mSamp] [], .error .vectorNotFound) ∧
    KMError.vectorNotFound ≠ KMError.documentNotFound := by
  constructor
  · norm_num [deleteDocument, deleteVectorsLoop, opensearchDeleteOne, mSamp]
  · intro h
    cases h

/-- C3 (amended): `delete_document` raises "document not found" iff no
metadata record matches the identifier; when some match and every linked
vector record is present (with distinct ids), it deletes those vector
records, bulk-deletes the matching metadata records, deletes the on-disk
file when it exists, and reports the chunk count; but when the first
linked vector record is absent the OpenSearch not-found error propagates
(it is not tolerated) and the metadata records are not deleted. -/
theorem c3_delete_document_behaviour (docId : String) (s : KBState) :
    ((deleteDocument docId s).2 = .error .documentNotFound ↔
      s.meta.filter (fun m => m.documentId == docId) = []) ∧
    (∀ m0 rest, s.meta.filter (fun m => m.documentId == docId) = m0 :: rest →
      (((m0 :: rest).map (fun m => m.opensearchDocId)).Nodup) →
      (∀ m ∈ m0 :: rest, ∃ v ∈ s.vdb, v.id = m.opensearchDocId) →
      deleteDocument docId s =
        ({ vdb := s.vdb.filter (fun v =>
             !(((m0 :: rest).map (fun m => m.opensearchDocId)).contains v.id))
           meta := s.meta.filter (fun m => m.documentId != docId)
           files := if (fileLookup s.files m0.filePath).isSome then
               fileDelete s.files m0.filePath
             else s.files },
         .ok (m0 :: rest).length)) ∧
    (∀ m0 rest, s.meta.filter (fun m => m.documentId == docId) = m0 :: rest →
      (∀ v ∈ s.vdb, v.id ≠ m0.opensearchDocId) →
      deleteDocument docId s = (s, .error .vectorNotFound)) := by
  refine ⟨?_, ?_, ?_⟩
  · rcases hm : s.meta.filter (fun m => m.documentId == docId) with _ | ⟨m0, rest⟩
    · simp [deleteDocument, hm]
    · simp only [deleteDocument, hm]
      rcases hloop : deleteVectorsLoop
          ((m0 :: rest).map (fun m => m.opensearchDocId)) s.vdb with ⟨vdb', oe⟩
      rcases oe with _ | e
      · rw [hloop]
        simp
      · have he := deleteVectorsLoop_error_eq _ _ _ _ hloop
        subst he
        rw [hloop]
        simp
  · intro m0 rest hm hnd hpres
    exact deleteDocument_ok docId s m0 rest hm hnd hpres
  · intro m0 rest hm hmiss
    have hnone : opensearchDeleteOne m0.opensearchDocId s.vdb =
        .error .vectorNotFound := by
      rw [opensearchDeleteOne, if_neg]
      rw [List.any_eq_true]
      rintro ⟨v, hv, hvid⟩
      exact hmiss v hv (by simpa using hvid)
    simp only [deleteDocument, hm, List.map_cons]
    rw [deleteVectorsLoop, hnone]

/-- Witness for C3 (amended): deleting a one-chunk document whose vector
record and on-disk file are present succeeds and clears all three stores. -/
theorem c3_witness :
    deleteDocument "d" (KBState.mk [vSamp] [mSamp]
        [(savedFilePath "general" "d" "f.txt", "hello")]) =
      ({ vdb := [vSamp].filter (fun v =>
           !((([mSamp].map (fun m => m.opensearchDocId)).contains v.id)))
         meta := [mSamp].filter (fun m => m.documentId != "d")
         files := if (fileLookup [(savedFilePath "general" "d" "f.txt", "hello")]
               mSamp.filePath).isSome then
             fileDelete [(savedFilePath "general" "d" "f.txt", "hello")]
               mSamp.filePath
           else [(savedFilePath "general" "d" "f.txt", "hello")] },
       .ok [mSamp].length) :=
  (c3_delete_document_behaviour "d" (KBState.mk [vSamp] [mSamp]
      [(savedFilePath "general" "d" "f.txt", "hello")])).2.1 mSamp []
    (by norm_num [mSamp]) (by simp)
    (by
      intro m hm
      simp only [List.mem_singleton] at hm
      subst hm
      exact ⟨vSamp, by simp, by simp [vSamp, mSamp]⟩)

/-! ### Lemmas about listing and reindexing -/

/-- Folding the dedup step over keys that all equal `x` leaves an
accumulator that already contains `x` unchanged. -/
lemma distinctKeys_fold_const (x : String) :
    ∀ l : List String, (∀ a ∈ l, a = x) →
      ∀ acc : List String, acc.contains x = true →
        l.foldl (fun acc k => if acc.contains k then acc else acc ++ [k]) acc
          = acc := by
  intro l
  induction l with
  | nil => intro _ acc _; rfl
  | cons a as ih =>
    intro hall acc hacc
    have ha : a = x := hall a (List.mem_cons_self a as)
    rw [List.foldl_cons, ha, if_pos hacc]
    exact ih (fun b hb => hall b (List.mem_cons_of_mem a hb)) acc hacc

/-- The distinct keys of a non-empty constant list form the singleton. -/
lemma distinctKeys_const (x : String) (l : List String) (hne : l ≠ [])
    (hall : ∀ a ∈ l, a = x) : distinctKeys l = [x] := by
  cases l with
  | nil => exact absurd rfl hne
  | cons a as =>
    have ha : a = x := hall a (List.mem_cons_self a as)
    rw [distinctKeys, List.foldl_cons]
    have hstep : (if ([] : List String).contains a then ([] : List String)
        else [] ++ [a]) = [x] := by
      rw [if_neg (by simp), List.nil_append, ha]
    rw [hstep]
    exact distinctKeys_fold_const x as
      (fun b hb => hall b (List.mem_cons_of_mem a hb)) [x] (by simp)

/-- When every metadata record belongs to one document, `list_documents`
returns that single summary, built from the first record. -/
lemma listDocuments_single (s : KBState) (x : String) (m0 : MetadataRecord)
    (ms : List MetadataRecord) (hcons : s.meta = m0 :: ms)
    (hall : ∀ m ∈ s.meta, m.documentId = x) :
    listDocuments none none s =
      [{ documentId := x
         fileName := m0.fileName
         filePath := m0.filePath
         documentType := m0.documentType
         category := m0.category
         chunkCount := s.meta.length
         totalContentLength := (s.meta.map (fun m => m.contentLength)).sum }] := by
  have hself : s.meta.filter (fun m => m.documentId == x) = s.meta :=
    List.filter_eq_self.mpr (fun m hm => by simp [hall m hm])
  have hkeys : distinctKeys (s.meta.map (fun m => m.documentId)) = [x] := by
    apply distinctKeys_const
    · simp [hcons]
    · intro a ha
      rw [List.mem_map] at ha
      obtain ⟨m, hm, hmx⟩ := ha
      rw [← hmx]
      exact hall m hm
  have hfind : s.meta.find? (fun m => m.documentId == x) = some m0 := by
    rw [hcons]
    exact List.find?_cons_of_pos _
      (by simp [hall m0 (hcons ▸ List.mem_cons_self m0 ms)])
  simp only [listDocuments, Bool.and_self, List.filter_true, hkeys,
    List.filterMap_cons, List.filterMap_nil, hfind, Option.map_some, hself]
  rfl

/-! ### Claim theorems: reindex -/

/-- C7 is the intent but the code violates it: `delete_document` removes
the on-disk file, and `reindex_all` only re-ingests when the file still
exists after the deletion, so nothing is ever re-ingested. On a state
holding one document with one chunk whose file is present, with a reader
that yields one chunk per file, `reindex_all` reports 0 documents and 0
chunks and empties all three stores instead of re-creating the single
chunk of the original ingestion. -/
theorem c7_reindex_reingests_nothing :
    reindexAll (fun _ c => [c]) (fun _ => [(1:ℚ)]) (fun n => "u" ++ toString n)
        "t" (KBState.mk [vSamp] [mSamp]
          [(savedFilePath "general" "d" "f.txt", "hello")]) =
      (KBState.mk [] [] [], .ok (0, 0)) ∧
    (KBState.mk [vSamp] [mSamp]
        [(savedFilePath "general" "d" "f.txt", "hello")]).meta.length = 1 := by
  constructor
  · norm_num [reindexAll, reindexLoop, listDocuments, distinctKeys,
      deleteDocument, deleteVectorsLoop, opensearchDeleteOne, fileLookup,
      fileDelete, vSamp, mSamp, savedFilePath, KNOWLEDGE_BASE_DIR]
  · rfl

/-- C8: a document whose stored file is missing at reindex time is
deleted (its vector records removed from the index, its metadata records
cleared) and is not re-ingested: `reindex_all` succeeds reporting 0
documents processed and 0 chunks created, and the file store is
untouched. Stated for a state whose metadata records all belong to that
one document. -/
theorem c8_missing_file_document_removed
    (rd : String → String → List String) (embed : String → List ℚ)
    (uuids : ℕ → String) (createdAt : String) (s : KBState) (x fp : String)
    (hne : s.meta ≠ [])
    (hall : ∀ m ∈ s.meta, m.documentId = x ∧ m.filePath = fp)
    (hfile : fileLookup s.files fp = none)
    (hnd : (s.meta.map (fun m => m.opensearchDocId)).Nodup)
    (hpres : ∀ m ∈ s.meta, ∃ v ∈ s.vdb, v.id = m.opensearchDocId) :
    reindexAll rd embed uuids createdAt s =
      ({ vdb := s.vdb.filter (fun v =>
           !((s.meta.map (fun m => m.opensearchDocId)).contains v.id))
         meta := []
         files := s.files },
       .ok (0, 0)) := by
  obtain ⟨m0, ms, hcons⟩ : ∃ m0 ms, s.meta = m0 :: ms := by
    cases hmm : s.meta with
    | nil => exact absurd hmm hne
    | cons a as => exact ⟨a, as, rfl⟩
  have hfp : m0.filePath = fp :=
    (hall m0 (hcons ▸ List.mem_cons_self m0 ms)).2
  have hlist := listDocuments_single s x m0 ms hcons (fun m hm => (hall m hm).1)
  have hself : s.meta.filter (fun m => m.documentId == x) = s.meta :=
    List.filter_eq_self.mpr (fun m hm => by simp [(hall m hm).1])
  have hdel := deleteDocument_ok x s m0 ms (by rw [hself, hcons])
    (by rw [← hcons]; exact hnd) (by rw [← hcons]; exact hpres)
  have hmeta0 : s.meta.filter (fun m => m.documentId != x) = [] := by
    rw [List.filter_eq_nil_iff]
    intro m hm
    simp [(hall m hm).1]
  have hdel2 : deleteDocument x s =
      ({ vdb := s.vdb.filter (fun v =>
           !((s.meta.map (fun m => m.opensearchDocId)).contains v.id))
         meta := []
         files := s.files },
       .ok (m0 :: ms).length) := by
    rw [hdel, hmeta0, hfp, hfile, ← hcons]
    simp
  rw [reindexAll, hlist, reindexLoop, hdel2]
  simp only []
  rw [hfp, hfile]
  rfl

/-- Witness for C8: a one-chunk document whose stored file is absent. -/
theorem c8_witness :
    reindexAll (fun _ c => [c]) (fun _ => [(1:ℚ)]) (fun n => "u" ++ toString n)
        "t" (KBState.mk [vSamp] [mSamp] []) =
      ({ vdb := [vSamp].filter (fun v =>
           !((([mSamp].map (fun m => m.opensearchDocId)).contains v.id)))
         meta := []
         files := [] },
       .ok (0, 0)) :=
  c8_missing_file_document_removed (fun _ c => [c]) (fun _ => [(1:ℚ)])
    (fun n => "u" ++ toString n) "t" (KBState.mk [vSamp] [mSamp] []) "d"
    (savedFilePath "general" "d" "f.txt")
    (by simp)
    (by
      intro m hm
      simp only [List.mem_singleton] at hm
      subst hm
      exact ⟨rfl, rfl⟩)
    rfl
    (by simp)
    (by
      intro m hm
      simp only [List.mem_singleton] at hm
      subst hm
      exact ⟨vSamp, by simp, by simp [vSamp, mSamp]⟩)

end KnowledgeManager
